import Mathlib

/-!
Verification of the WKB raster codec (`wkb_raster.py`).

The Python module has two entry points:

* `read_wkb_raster(wkb)` — decodes a PostGIS WKB raster byte stream into a
  dictionary (header fields plus a list of band dictionaries);
* `write_wkb_raster(raster_file_path)` — serializes a raster opened through
  rasterio into a WKB byte string.

The shallow embedding below models byte streams as `List Nat` (each element a
byte value), Python's typed scalar values as `Val` (with IEEE floats carried
as raw bit patterns, since the codec only moves their bytes), and the possible
outcomes of a call as `DRes`: a normal return, a raised exception
(`PyErr`, named after the Python exception class that the interpreter raises
at the corresponding source line), or divergence (`DRes.hang`, for the one
loop in the module that can run forever).

Because `numpy` interprets a dtype string such as `'u2'` in the *machine's
native* byte order while `struct.unpack` is given an explicit `<`/`>` prefix,
the decoder model is parameterized by the machine byte order in addition to
the byte order resolved from the stream's endianness marker.
-/

namespace WKB

/-- Byte order: `'>'` (big) or `'<'` (little) in `struct` format strings. -/
inductive ByteOrder : Type where
  | big : ByteOrder
  | little : ByteOrder
deriving DecidableEq

/-- The Python exception class raised on each failing path of the module:
`struct.error` (unpack given too few bytes), `TypeError` (either the
unconverted endianness marker concatenated with a format string at line 91,
or numpy's "buffer is too small for requested array" at line 211),
`IndexError` (pixel-type table lookup out of range, line 161),
`UnicodeDecodeError` (line 194), and `NameError` (line 374, unbound name). -/
inductive PyErr : Type where
  | structErr : PyErr
  | typeErr : PyErr
  | indexErr : PyErr
  | unicodeErr : PyErr
  | nameErr : PyErr
deriving DecidableEq

/-- Outcome of running a piece of the Python code: normal value, raised
exception, or non-termination. -/
inductive DRes (α : Type) : Type where
  | ok : α → DRes α
  | err : PyErr → DRes α
  | hang : DRes α
deriving DecidableEq

/-- Sequencing of Python statements: an exception or divergence aborts the
rest of the call. -/
def DRes.bind {α β : Type} : DRes α → (α → DRes β) → DRes β
  | .ok a, f => f a
  | .err e, _ => .err e
  | .hang, _ => .hang

/-- A Python scalar produced by `struct.unpack` or stored in a numpy array:
`bool` for format `'?'`/dtype `b1`, `int` for the integer formats, and floats
(formats `'f'`/`'d'`, dtypes `f4`/`f8`) carried as their raw bit patterns —
the codec never computes with float values, it only moves their bytes. -/
inductive Val : Type where
  | vBool : Bool → Val
  | vInt : Int → Val
  | vFloat32 : Nat → Val
  | vFloat64 : Nat → Val
deriving DecidableEq

/-- One band dictionary as built by `read_wkb_raster` (lines 105-217): the
three flag booleans and the nodata value are always present; `bandNumber` and
`path` only for an offline band; `ndarray` only for an inline band. -/
structure Band : Type where
  isOffline : Bool
  hasNodataValue : Bool
  isNodataValue : Bool
  nodata : Val
  bandNumber : Option Nat
  path : Option (List Nat)
  ndarray : Option (List (List Val))
deriving DecidableEq

/-- The dictionary returned by `read_wkb_raster` (lines 93-103): the header
fields and the list of bands.  The six geotransform fields are 64-bit float
bit patterns; `srid` is kept as a Lean `Int` because Python ints are
unbounded (line 91 unpacks it with format `'I'`). -/
structure Raster : Type where
  version : Nat
  scaleX : Nat
  scaleY : Nat
  ipX : Nat
  ipY : Nat
  skewX : Nat
  skewY : Nat
  srid : Int
  width : Nat
  height : Nat
  bands : List Band
deriving DecidableEq

/-- Big-endian value of a byte list (most significant byte first). -/
def beVal (bs : List Nat) : Nat := bs.foldl (fun acc b => acc * 256 + b) 0

/-- Value of a byte list in the given byte order. -/
def wordOfBytes : ByteOrder → List Nat → Nat
  | .big, bs => beVal bs
  | .little, bs => beVal bs.reverse

/-- Two's-complement reinterpretation of a `w`-bit unsigned value, as
performed by the signed `struct` formats `'b'`, `'h'`, `'i'`. -/
def toSigned (w : Nat) (n : Nat) : Int :=
  if n < 2 ^ (w - 1) then (n : Int) else (n : Int) - 2 ^ w

/-- The wire value of the endianness marker for a byte order
(1 = ndr/little, 0 = xdr/big; lines 53-56 and 239-244). -/
def boByte : ByteOrder → Nat
  | .big => 0
  | .little => 1

/-- One field of the fixed 60-byte header: the `len` bytes starting at byte
offset `off`, interpreted in the resolved byte order.  The offsets follow
the `struct` format `'HHddddddIHH'` of line 91. -/
def headerField (bo : ByteOrder) (hdr : List Nat) (off len : Nat) : Nat :=
  wordOfBytes bo ((hdr.drop off).take len)

/-- The `sizes` table of line 159: byte width of each of the 11 pixel types.
The parallel tables `fmts` (line 155) and `dtypes` (line 157) choose the
interpretation of those bytes; they are folded into `decodeVal` below. -/
def sizes : List Nat := [1, 1, 1, 1, 1, 2, 2, 4, 4, 4, 8]

/-- Interpretation of a field's bytes according to the pixel-type index,
following the `fmts`/`dtypes` tables of lines 155-158: pixel type 0 is
format `'?'`/dtype `b1` (any nonzero byte is `True`), types 3/5/7 are the
signed integer formats `'b'`/`'h'`/`'i'`, types 1/2/4/6/8 the unsigned ones,
and types 9/10 the floats, kept as bit patterns. -/
def decodeVal (bo : ByteOrder) (pixtype : Nat) (bs : List Nat) : Val :=
  match pixtype with
  | 0 => .vBool (wordOfBytes bo bs != 0)
  | 3 => .vInt (toSigned 8 (wordOfBytes bo bs))
  | 5 => .vInt (toSigned 16 (wordOfBytes bo bs))
  | 7 => .vInt (toSigned 32 (wordOfBytes bo bs))
  | 9 => .vFloat32 (wordOfBytes bo bs)
  | 10 => .vFloat64 (wordOfBytes bo bs)
  | _ => .vInt (wordOfBytes bo bs)

/-- The path-reading loop of lines 186-192: consume bytes one at a time until
a 0 byte is consumed, returning the bytes before the terminator and the rest
of the stream.  When the stream is exhausted before a 0 byte is found, the
Python loop never terminates (`wkb.read(1)` returns `b''` forever at end of
stream, which is never equal to `b'\x00'`); that case is `none` here and is
mapped to `DRes.hang` by the caller. -/
def splitAtZero : List Nat → Option (List Nat × List Nat)
  | [] => none
  | b :: rest =>
    if b = 0 then some ([], rest)
    else
      match splitAtZero rest with
      | none => none
      | some (d, r) => some (b :: d, r)

/-- Is `b` a UTF-8 continuation byte (0x80-0xBF)? -/
def contOk (b : Nat) : Bool := 128 ≤ b && b ≤ 191

/-- Validity of a byte sequence as UTF-8, as checked by `bytes.decode()` at
line 194 (strict mode: rejects continuation-byte starts, overlongs,
surrogates and code points above U+10FFFF).  The decoded text is in
bijection with its byte sequence, so the model keeps paths as byte lists. -/
def utf8Valid : List Nat → Bool
  | [] => true
  | b :: rest =>
    if b ≤ 127 then utf8Valid rest
    else if b ≤ 193 then false
    else if b ≤ 223 then
      match rest with
      | b2 :: r => contOk b2 && utf8Valid r
      | [] => false
    else if b ≤ 239 then
      match rest with
      | b2 :: b3 :: r =>
        (if b = 224 then 160 ≤ b2 && b2 ≤ 191
         else if b = 237 then 128 ≤ b2 && b2 ≤ 159
         else contOk b2) && contOk b3 && utf8Valid r
      | _ => false
    else if b ≤ 244 then
      match rest with
      | b2 :: b3 :: b4 :: r =>
        (if b = 240 then 144 ≤ b2 && b2 ≤ 191
         else if b = 244 then 128 ≤ b2 && b2 ≤ 143
         else contOk b2) && contOk b3 && contOk b4 && utf8Valid r
      | _ => false
    else false

/-- The numpy array built at lines 211-215:
`np.ndarray((height, width), buffer=..., dtype=np.dtype(dtype))` lays the
buffer out C-contiguously, so row `r`, column `c` is element `r*width + c`
of the flat buffer.  The dtype string (`'u2'`, `'f8'`, ...) carries no byte
order character, so numpy interprets each element in the machine's native
byte order — not in the byte order resolved from the stream. -/
def ndarrayOf (machine : ByteOrder) (pixtype size width height : Nat)
    (buf : List Nat) : List (List Val) :=
  (List.range height).map fun r =>
    (List.range width).map fun c =>
      decodeVal machine pixtype ((buf.drop ((r * width + c) * size)).take size)

/-- One iteration of the band loop of `read_wkb_raster` (lines 105-217):
flag byte, pixel-type table lookup, nodata value, then either the offline
record or the inline pixel buffer.  Returns the band together with the
not-yet-consumed rest of the stream.

Failure modes, in source order: `struct.error` when the stream is empty at
the flag byte (line 145); `IndexError` when `pixtype = bits & 15` is 11-15,
raised by `dtypes[pixtype]` at line 161 (the three tables have 11 entries);
`struct.error` when fewer than `size` bytes remain for the nodata value
(line 166); for an offline band, `struct.error` on a missing band-number
byte (line 183), divergence when no 0 terminator follows (lines 187-192) and
`UnicodeDecodeError` on invalid UTF-8 (line 194); for an inline band,
numpy's `TypeError` when fewer than `width*height*size` bytes remain
(line 211). -/
def readBand (machine bo : ByteOrder) (width height : Nat) (s : List Nat) :
    DRes (Band × List Nat) :=
  match s with
  | [] => .err .structErr
  | bits :: s1 =>
    match sizes.get? (bits % 16) with
    | none => .err .indexErr
    | some size =>
      let nd := s1.take size
      let s2 := s1.drop size
      if nd.length = size then
        let nodata := decodeVal bo (bits % 16) nd
        if bits.testBit 7 then
          match s2 with
          | [] => .err .structErr
          | bn :: s3 =>
            match splitAtZero s3 with
            | none => .hang
            | some (data, s4) =>
              if utf8Valid data then
                .ok ({ isOffline := true
                       hasNodataValue := bits.testBit 6
                       isNodataValue := bits.testBit 5
                       nodata := nodata
                       bandNumber := some (bn + 1)
                       path := some data
                       ndarray := none }, s4)
              else .err .unicodeErr
        else
          let n := width * height * size
          let buf := s2.take n
          let s3 := s2.drop n
          if n ≤ buf.length then
            .ok ({ isOffline := false
                   hasNodataValue := bits.testBit 6
                   isNodataValue := bits.testBit 5
                   nodata := nodata
                   bandNumber := none
                   path := none
                   ndarray := some (ndarrayOf machine (bits % 16) size width height buf) }, s3)
          else .err .typeErr
      else .err .structErr

/-- The `for _ in range(bands)` loop of line 105: read `n` bands in stream
order. -/
def readBands (machine bo : ByteOrder) (width height : Nat) :
    Nat → List Nat → DRes (List Band × List Nat)
  | 0, s => .ok ([], s)
  | n + 1, s =>
    DRes.bind (readBand machine bo width height s) fun br =>
      DRes.bind (readBands machine bo width height n br.2) fun bl =>
        .ok (br.1 :: bl.1, bl.2)

/-- The dictionary assembled at lines 93-103 from the 60 header bytes
(unpacked per the format `'HHddddddIHH'` of line 91: two `uint16`, six
`float64`, one *unsigned* 32-bit `'I'` for srid, two `uint16`), together
with a band list. -/
def rasterOfHeader (bo : ByteOrder) (hdr : List Nat) (bl : List Band) : Raster :=
  { version := headerField bo hdr 0 2
    scaleX := headerField bo hdr 4 8
    scaleY := headerField bo hdr 12 8
    ipX := headerField bo hdr 20 8
    ipY := headerField bo hdr 28 8
    skewX := headerField bo hdr 36 8
    skewY := headerField bo hdr 44 8
    srid := (headerField bo hdr 52 4 : Int)
    width := headerField bo hdr 56 2
    height := headerField bo hdr 58 2
    bands := bl }

/-- `read_wkb_raster` (lines 11-219).  The first byte is unpacked with
format `'<b'` (line 51) and compared against 0 and 1 (lines 53-56); any
other value leaves `endian` an `int`, so the string concatenation
`endian + 'HHddddddIHH'` at line 91 raises `TypeError`.  `wkb.read(60)`
returns at most 60 bytes; `struct.unpack` raises `struct.error` unless it
receives exactly 60.  The band count, width and height driving the band
loop are the header fields at offsets 2, 56 and 58. -/
def read_wkb_raster (machine : ByteOrder) (s : List Nat) : DRes Raster :=
  match s with
  | [] => .err .structErr
  | e :: s1 =>
    let boOpt : Option ByteOrder :=
      if e = 0 then some .big else if e = 1 then some .little else none
    match boOpt with
    | none => .err .typeErr
    | some bo =>
      let hdr := s1.take 60
      if hdr.length = 60 then
        DRes.bind
          (readBands machine bo (headerField bo hdr 56 2) (headerField bo hdr 58 2)
            (headerField bo hdr 2 2) (s1.drop 60))
          fun p => .ok (rasterOfHeader bo hdr p.1)
      else .err .structErr

/-- `w` bytes of `n`, most significant first (each byte `n` shifted and
reduced mod 256), as laid out by `struct.pack` with a big-endian prefix. -/
def natToBytesBE : Nat → Nat → List Nat
  | 0, _ => []
  | w + 1, n => natToBytesBE w (n / 256) ++ [n % 256]

/-- `struct.pack` of one `w`-byte unsigned field in the given byte order. -/
def packW (bo : ByteOrder) (w n : Nat) : List Nat :=
  match bo with
  | .big => natToBytesBE w n
  | .little => (natToBytesBE w n).reverse

/-- The scalar metadata that `write_wkb_raster` extracts from the rasterio
source at lines 281-295 (an out-of-scope collaborator per the module's
design): band count, the geotransform fields it uses (as 64-bit float bit
patterns), the EPSG code parsed from the CRS, and the pixel dimensions. -/
structure SrcInfo : Type where
  count : Nat
  scaleX : Nat
  scaleY : Nat
  ipX : Nat
  ipY : Nat
  srid : Nat
  width : Nat
  height : Nat
deriving DecidableEq

/-- The serialized chunk for one band (lines 303-410 of
`write_wkb_raster`).  Its first step, the flag byte (lines 371-382), builds
the f-string ``f"{ifOffline:b}{hasNodataValue:b}{isNodataValue:b}{reserved:b}{pixtype:b}"``;
the name `ifOffline` is never bound (the variable assigned at line 342 is
`isOffline`), so evaluating the f-string raises `NameError` on every band,
before any nodata or pixel bytes are produced. -/
def writeBandChunk : DRes (List Nat) := .err .nameErr

/-- The `for i in range(1, nBands + 1)` loop of line 303, producing the list
of per-band chunks. -/
def writeBandChunks : Nat → DRes (List (List Nat))
  | 0 => .ok []
  | n + 1 =>
    DRes.bind writeBandChunk fun c =>
      DRes.bind (writeBandChunks n) fun cs => .ok (c :: cs)

/-- `write_wkb_raster` (lines 222-418): the header is packed with format
`'bHHddddddIHH'` in the machine's byte order (lines 230-299), with
`version = 0` and `skewX = skewY = 0` hard-coded (lines 285, 291-292); then
the band chunks are appended (lines 412-417). -/
def write_wkb_raster (machine : ByteOrder) (src : SrcInfo) : DRes (List Nat) :=
  let header : List Nat :=
    boByte machine ::
      (packW machine 2 0 ++ packW machine 2 src.count ++
       packW machine 8 src.scaleX ++ packW machine 8 src.scaleY ++
       packW machine 8 src.ipX ++ packW machine 8 src.ipY ++
       packW machine 8 0 ++ packW machine 8 0 ++
       packW machine 4 src.srid ++
       packW machine 2 src.width ++ packW machine 2 src.height)
  DRes.bind (writeBandChunks src.count) fun chunks => .ok (header ++ chunks.flatten)

/-- Number of characters of Python's `f"{n:b}"` (binary, no padding): 1 for
`n = 0`, otherwise the number of binary digits of `n`.  Written with an
explicit fuel argument (the fuel `n` suffices since halving reaches 0-1
within `n` steps) so the definition is structural. -/
def binDigitsFuel : Nat → Nat → Nat
  | 0, _ => 1
  | fuel + 1, n => if n < 2 then 1 else binDigitsFuel fuel (n / 2) + 1

/-- Number of characters of Python's `f"{n:b}"`. -/
def binDigits (n : Nat) : Nat := binDigitsFuel n n

/-- The flag-byte value that lines 374-382 would compute if the unbound name
`ifOffline` were read as the in-scope `isOffline`: each boolean formats as a
single character `"0"`/`"1"`, `pixtype` formats as its binary digits with
**no zero padding**, the characters are concatenated and the result parsed
as binary.  For `pixtype < 8` the pixel type contributes fewer than 4
digits, so the boolean bits land at the wrong positions. -/
def bandHeaderByteIntended (isOff hasNd isNd reserved : Bool) (pixtype : Nat) : Nat :=
  let bbit : Bool → Nat := fun b => if b then 1 else 0
  (((bbit isOff * 2 + bbit hasNd) * 2 + bbit isNd) * 2 + bbit reserved) *
      2 ^ binDigits pixtype + pixtype


/-- A concrete little-endian 60-byte header: version 0, the given band
count, all six geotransform fields 0, srid 0, and the given width and
height. -/
def mkHdrLE (nBands width height : Nat) : List Nat :=
  [0, 0] ++ packW .little 2 nBands ++ List.replicate 48 0 ++ [0, 0, 0, 0] ++
    packW .little 2 width ++ packW .little 2 height

/-- A little-endian header whose srid field bytes are `FF FF FF FF` and
whose band count is 0. -/
def c4hdr : List Nat := [0, 0, 0, 0] ++ List.replicate 48 0 ++ [255, 255, 255, 255, 0, 0, 0, 0]

/-- A rasterio source with one band (the remaining metadata is arbitrary). -/
def c1src : SrcInfo :=
  { count := 1, scaleX := 0, scaleY := 0, ipX := 0, ipY := 0,
    srid := 4326, width := 2, height := 2 }

/-- A stream holding one offline band whose path is never 0-terminated:
little-endian marker, 1×1 one-band header, flag byte `0b10000100`
(offline, pixel type 4), one nodata byte, the wire band number, and two
path bytes with no terminator before the stream ends. -/
def c7stream : List Nat := 1 :: (mkHdrLE 1 1 1 ++ [132, 0, 0, 47, 100])

/-- A big-endian 1×1 one-band header. -/
def c10hdr : List Nat :=
  [0, 0] ++ [0, 1] ++ List.replicate 48 0 ++ [0, 0, 0, 0] ++ [0, 1] ++ [0, 1]

/-- A big-endian stream (marker byte 0) holding one inline band of pixel
type 5 (16-bit signed) with a single pixel whose wire bytes are `01 00`. -/
def c10stream : List Nat := 0 :: (c10hdr ++ [5, 0, 0, 1, 0])

/-! ## Helper lemmas -/

/-- Splitting off the 0-terminated prefix of a stream that contains a
terminator: the bytes before the first 0 byte and the rest after it. -/
theorem splitAtZero_append (p rest : List Nat) (hp : 0 ∉ p) :
    splitAtZero (p ++ 0 :: rest) = some (p, rest) := by
  induction p with
  | nil => simp [splitAtZero]
  | cons b q ih =>
    have hb : b ≠ 0 := fun h => hp (h ▸ List.mem_cons_self b q)
    have hq : 0 ∉ q := fun h => hp (List.mem_cons_of_mem b h)
    simp [splitAtZero, hb, ih hq]

/-- The pixel-type tables have 11 entries, so any index of 11 or more is out
of range. -/
theorem sizes_get_none {p : Nat} (hp : 11 ≤ p) : sizes.get? p = none :=
  List.get?_eq_none.mpr (by simp [sizes]; omega)

/-- Decoding a stream whose endianness marker is the byte of `bo` and whose
next 60 bytes are `hdr`: the header is unpacked in the byte order selected
by the marker and the rest of the stream is handed to the band loop. -/
theorem read_header_split (machine bo : ByteOrder) (hdr rest : List Nat)
    (h60 : hdr.length = 60) :
    read_wkb_raster machine (boByte bo :: (hdr ++ rest)) =
      DRes.bind
        (readBands machine bo (headerField bo hdr 56 2) (headerField bo hdr 58 2)
          (headerField bo hdr 2 2) rest)
        (fun p => .ok (rasterOfHeader bo hdr p.1)) := by
  cases bo <;>
    simp [read_wkb_raster, boByte, List.take_left' h60, List.drop_left' h60, h60]

/-- Evaluating the band reader on an inline band laid out as
flag byte, nodata bytes, pixel buffer, rest of stream. -/
theorem readBand_inline (machine bo : ByteOrder) (w h flag size : Nat)
    (nd payload rest : List Nat)
    (hoff : flag.testBit 7 = false)
    (hsize : sizes.get? (flag % 16) = some size)
    (hnd : nd.length = size)
    (hpay : payload.length = w * h * size) :
    readBand machine bo w h (flag :: (nd ++ (payload ++ rest))) =
      .ok ({ isOffline := false
             hasNodataValue := flag.testBit 6
             isNodataValue := flag.testBit 5
             nodata := decodeVal bo (flag % 16) nd
             bandNumber := none
             path := none
             ndarray := some (ndarrayOf machine (flag % 16) size w h payload) }, rest) := by
  have h1 : (nd ++ (payload ++ rest)).take size = nd := List.take_left' hnd
  have h2 : (nd ++ (payload ++ rest)).drop size = payload ++ rest := List.drop_left' hnd
  have h3 : (payload ++ rest).take (w * h * size) = payload := List.take_left' hpay
  have h4 : (payload ++ rest).drop (w * h * size) = rest := List.drop_left' hpay
  simp only [readBand, hsize, h1, h2, h3, h4, hnd, hoff, hpay]
  simp

/-- Evaluating the band reader on an offline band laid out as flag byte,
nodata bytes, wire band number, 0-terminated path, rest of stream. -/
theorem readBand_offline (machine bo : ByteOrder) (w h flag size bn : Nat)
    (nd p rest : List Nat)
    (hoff : flag.testBit 7 = true)
    (hsize : sizes.get? (flag % 16) = some size)
    (hnd : nd.length = size)
    (hp : 0 ∉ p) (hutf : utf8Valid p = true) :
    readBand machine bo w h (flag :: (nd ++ (bn :: (p ++ (0 :: rest))))) =
      .ok ({ isOffline := true
             hasNodataValue := flag.testBit 6
             isNodataValue := flag.testBit 5
             nodata := decodeVal bo (flag % 16) nd
             bandNumber := some (bn + 1)
             path := some p
             ndarray := none }, rest) := by
  have h1 : (nd ++ (bn :: (p ++ (0 :: rest)))).take size = nd := List.take_left' hnd
  have h2 : (nd ++ (bn :: (p ++ (0 :: rest)))).drop size = bn :: (p ++ (0 :: rest)) :=
    List.drop_left' hnd
  simp only [readBand, hsize, h1, h2, hnd, hoff, splitAtZero_append p rest hp, hutf]
  simp

/-- The element at row `r`, column `c` of a map over `List.range`. -/
theorem getD_range_map {β : Type} (f : Nat → β) (h r : Nat) (d : β) (hr : r < h) :
    ((List.range h).map f).getD r d = f r := by
  rw [List.getD_eq_get?, List.get?_map, List.get?_range hr]
  rfl


/-! ## Claims -/

/-- Claim C1 (code bug).  The round trip `decode(encode(r)) = r` is
impossible for any raster with at least one band: the encoder's flag-byte
f-string (line 374) reads the unbound name `ifOffline` (the variable
assigned at line 342 is `isOffline`), so `write_wkb_raster` raises
`NameError` before emitting a single band byte. -/
theorem claimC1 (machine : ByteOrder) (src : SrcInfo) (h : src.count ≠ 0) :
    write_wkb_raster machine src = .err .nameErr := by
  obtain ⟨n, hn⟩ : ∃ n, src.count = n + 1 := ⟨src.count - 1, by omega⟩
  simp [write_wkb_raster, hn, writeBandChunks, writeBandChunk, DRes.bind]

/-- Witness for C1 at a concrete one-band source. -/
theorem claimC1_witness :
    c1src.count ≠ 0 ∧ write_wkb_raster .little c1src = .err .nameErr :=
  ⟨by decide, claimC1 .little c1src (by decide)⟩

/-- Claim C2 (code bug).  Decoding flag byte `0b01000111` does yield
isOffline = false, hasNodataValue = true, isNodataValue = false and pixel
type 7 (the nodata value and the single pixel are both read as 4-byte
signed integers, confirming the undecremented index); but the encoder
cannot reproduce that byte: its flag-byte step raises `NameError`
(unbound `ifOffline`, line 374), and even reading the typo as `isOffline`
the unpadded f-string yields byte 39 = `0b00100111`, not 71. -/
theorem claimC2 :
    readBand .little .little 1 1 (0b01000111 :: ([0, 0, 0, 0] ++ ([1, 0, 0, 0] ++ []))) =
      .ok ({ isOffline := false
             hasNodataValue := true
             isNodataValue := false
             nodata := .vInt 0
             bandNumber := none
             path := none
             ndarray := some [[.vInt 1]] }, []) ∧
    writeBandChunk = .err .nameErr ∧
    bandHeaderByteIntended false true false false 7 = 39 ∧
    (39 : Nat) ≠ 0b01000111 := by decide

/-- Claim C3 (confirmed).  Any band flag byte carrying a 4-bit pixel-type
code of 11-15 makes the band decode fail with the `IndexError` raised by
the 11-entry pixel-type table lookup (`dtypes[pixtype]`, line 161) — no
band and no raster value is produced; at the whole-stream level, any
stream whose first band flag byte carries such a code fails the entire
decode the same way. -/
theorem claimC3 :
    (∀ (machine bo : ByteOrder) (w h flag : Nat) (rest : List Nat),
      11 ≤ flag % 16 →
      readBand machine bo w h (flag :: rest) = .err .indexErr) ∧
    (∀ (machine bo : ByteOrder) (hdr rest : List Nat) (flag k : Nat),
      hdr.length = 60 → headerField bo hdr 2 2 = k + 1 → 11 ≤ flag % 16 →
      read_wkb_raster machine (boByte bo :: (hdr ++ (flag :: rest))) = .err .indexErr) := by
  have hband : ∀ (machine bo : ByteOrder) (w h flag : Nat) (rest : List Nat),
      11 ≤ flag % 16 → readBand machine bo w h (flag :: rest) = .err .indexErr := by
    intro machine bo w h flag rest hp
    simp only [readBand, sizes_get_none hp]
  refine ⟨hband, ?_⟩
  intro machine bo hdr rest flag k h60 hN hp
  rw [read_header_split machine bo hdr _ h60, hN]
  simp [readBands, hband _ _ _ _ _ _ hp, DRes.bind]

/-- Witness for C3 at pixel-type code 13. -/
theorem claimC3_witness :
    11 ≤ 13 % 16 ∧ (mkHdrLE 1 4 4).length = 60 ∧
    headerField .little (mkHdrLE 1 4 4) 2 2 = 0 + 1 ∧
    read_wkb_raster .little (boByte .little :: (mkHdrLE 1 4 4 ++ (13 :: []))) =
      .err .indexErr :=
  ⟨by decide, by decide, by decide,
    claimC3.2 .little .little (mkHdrLE 1 4 4) [] 13 0 (by decide) (by decide) (by decide)⟩

/-- Claim C4 (code bug).  The header decode does read exactly 60 bytes and
unpack them in order, but the srid field is unpacked with the *unsigned*
format `'I'` (line 91), against the claim, the code's own comment table
("srid | int32") and the PostGIS RFC: the srid bytes `FF FF FF FF` decode
to 4294967295, where the signed reading (as performed by `toSigned` for
the signed pixel formats) gives -1. -/
theorem claimC4 :
    read_wkb_raster .little (1 :: c4hdr) =
      .ok { version := 0, scaleX := 0, scaleY := 0, ipX := 0, ipY := 0,
            skewX := 0, skewY := 0, srid := 4294967295, width := 0, height := 0,
            bands := [] } ∧
    toSigned 32 (headerField .little c4hdr 52 4) = -1 ∧
    ((4294967295 : Int) ≠ -1) := by decide

/-- Claim C5 (confirmed).  A first byte other than 0 or 1 always fails the
decode (with the `TypeError` raised at line 91 when the unconverted marker
is concatenated with the format string) — no byte-order fallback is ever
attempted; marker 1 decodes the header little-endian and marker 0 decodes
it big-endian. -/
theorem claimC5 :
    (∀ (machine : ByteOrder) (b : Nat) (s : List Nat), b ≠ 0 → b ≠ 1 →
      read_wkb_raster machine (b :: s) = .err .typeErr) ∧
    (∀ (machine : ByteOrder) (hdr : List Nat), hdr.length = 60 →
      headerField .little hdr 2 2 = 0 →
      read_wkb_raster machine (1 :: hdr) = .ok (rasterOfHeader .little hdr [])) ∧
    (∀ (machine : ByteOrder) (hdr : List Nat), hdr.length = 60 →
      headerField .big hdr 2 2 = 0 →
      read_wkb_raster machine (0 :: hdr) = .ok (rasterOfHeader .big hdr [])) := by
  refine ⟨?_, ?_, ?_⟩
  · intro machine b s hb0 hb1
    simp [read_wkb_raster, hb0, hb1]
  · intro machine hdr h60 hN
    have h := read_header_split machine .little hdr [] h60
    rw [hN] at h
    simpa [boByte, readBands, DRes.bind] using h
  · intro machine hdr h60 hN
    have h := read_header_split machine .big hdr [] h60
    rw [hN] at h
    simpa [boByte, readBands, DRes.bind] using h

/-- Witness for C5: marker byte 2 fails; markers 1 and 0 succeed on an
all-zero header in the corresponding byte order. -/
theorem claimC5_witness :
    ((2 : Nat) ≠ 0) ∧ ((2 : Nat) ≠ 1) ∧
    read_wkb_raster .little [2] = .err .typeErr ∧
    read_wkb_raster .little (1 :: List.replicate 60 0) =
      .ok (rasterOfHeader .little (List.replicate 60 0) []) ∧
    read_wkb_raster .little (0 :: List.replicate 60 0) =
      .ok (rasterOfHeader .big (List.replicate 60 0) []) :=
  ⟨by decide, by decide, claimC5.1 .little 2 [] (by decide) (by decide),
    claimC5.2.1 .little (List.replicate 60 0) (by decide) (by decide),
    claimC5.2.2 .little (List.replicate 60 0) (by decide) (by decide)⟩

/-- Claim C6 (confirmed).  When the stream ends with fewer inline payload
bytes than `width*height*size`, the whole decode fails (with the
`TypeError` numpy raises at line 211 for a buffer smaller than the
requested array) and no raster value is produced. -/
theorem claimC6 :
    ∀ (machine bo : ByteOrder) (hdr nd payload : List Nat) (flag size k : Nat),
      hdr.length = 60 → headerField bo hdr 2 2 = k + 1 →
      flag.testBit 7 = false → sizes.get? (flag % 16) = some size →
      nd.length = size →
      payload.length < headerField bo hdr 56 2 * headerField bo hdr 58 2 * size →
      read_wkb_raster machine (boByte bo :: (hdr ++ (flag :: (nd ++ payload)))) =
        .err .typeErr := by
  intro machine bo hdr nd payload flag size k h60 hN hoff hsize hnd hlt
  rw [read_header_split machine bo hdr _ h60, hN]
  have hb : readBand machine bo (headerField bo hdr 56 2) (headerField bo hdr 58 2)
      (flag :: (nd ++ payload)) = .err .typeErr := by
    have h1 : (nd ++ payload).take size = nd := List.take_left' hnd
    have h2 : (nd ++ payload).drop size = payload := List.drop_left' hnd
    have h3 : ¬ (headerField bo hdr 56 2 * headerField bo hdr 58 2 * size ≤
        min (headerField bo hdr 56 2 * headerField bo hdr 58 2 * size) payload.length) := by
      omega
    simp only [readBand, hsize, h1, h2, hnd, hoff, List.length_take]
    simp [h3]
  simp [readBands, hb, DRes.bind]

/-- Witness for C6: the spec scenario — width 4, height 4, pixel type 4
(one byte per pixel), but only 10 payload bytes instead of 16. -/
theorem claimC6_witness :
    (mkHdrLE 1 4 4).length = 60 ∧
    headerField .little (mkHdrLE 1 4 4) 2 2 = 0 + 1 ∧
    Nat.testBit 4 7 = false ∧ sizes.get? (4 % 16) = some 1 ∧
    ([0] : List Nat).length = 1 ∧
    (List.replicate 10 7).length <
      headerField .little (mkHdrLE 1 4 4) 56 2 *
        headerField .little (mkHdrLE 1 4 4) 58 2 * 1 ∧
    read_wkb_raster .little
        (boByte .little :: (mkHdrLE 1 4 4 ++ (4 :: ([0] ++ List.replicate 10 7)))) =
      .err .typeErr :=
  ⟨by decide, by decide, by decide, by decide, by decide, by decide,
    claimC6 .little .little (mkHdrLE 1 4 4) [0] (List.replicate 10 7) 4 1 0
      (by decide) (by decide) (by decide) (by decide) (by decide) (by decide)⟩

/-- Claim C7 (code bug).  On an offline band whose path is never
0-terminated, the decode does not fail with an error: the loop at lines
187-192 runs forever, because `wkb.read(1)` returns the empty bytes object
at end of stream and the loop only stops on a 0 byte.  Evaluating the
model on such a stream yields the divergence marker, refuting the claim
that decode terminates on every finite input. -/
theorem claimC7 : read_wkb_raster .little c7stream = .hang := by decide

/-- Claim C8 (confirmed).  For an offline band the decoder reads one wire
band-number byte and exposes it plus one, then takes the bytes before the
first 0 byte as the path (validated as UTF-8), consuming the terminator
without storing it and leaving exactly the bytes after the terminator
unread. -/
theorem claimC8 :
    ∀ (machine bo : ByteOrder) (w h flag size bn : Nat) (nd p rest : List Nat),
      flag.testBit 7 = true → sizes.get? (flag % 16) = some size →
      nd.length = size → 0 ∉ p → utf8Valid p = true →
      readBand machine bo w h (flag :: (nd ++ (bn :: (p ++ (0 :: rest))))) =
        .ok ({ isOffline := true
               hasNodataValue := flag.testBit 6
               isNodataValue := flag.testBit 5
               nodata := decodeVal bo (flag % 16) nd
               bandNumber := some (bn + 1)
               path := some p
               ndarray := none }, rest) :=
  fun machine bo w h flag size bn nd p rest hoff hsize hnd hp hutf =>
    readBand_offline machine bo w h flag size bn nd p rest hoff hsize hnd hp hutf

/-- Witness for C8: wire band number 1 exposed as band 2, path "/data". -/
theorem claimC8_witness :
    Nat.testBit 132 7 = true ∧ sizes.get? (132 % 16) = some 1 ∧
    ([7] : List Nat).length = 1 ∧ (0 : Nat) ∉ [47, 100, 97, 116, 97] ∧
    utf8Valid [47, 100, 97, 116, 97] = true ∧
    readBand .big .little 9 9 (132 :: ([7] ++ (1 :: ([47, 100, 97, 116, 97] ++ (0 :: [8]))))) =
      .ok ({ isOffline := true
             hasNodataValue := Nat.testBit 132 6
             isNodataValue := Nat.testBit 132 5
             nodata := decodeVal .little (132 % 16) [7]
             bandNumber := some (1 + 1)
             path := some [47, 100, 97, 116, 97]
             ndarray := none }, [8]) :=
  ⟨by decide, by decide, by decide, by decide, by decide,
    claimC8 .big .little 9 9 132 1 1 [7] [47, 100, 97, 116, 97] [8]
      (by decide) (by decide) (by decide) (by decide) (by decide)⟩

/-- Claim C9 (confirmed).  The nodata scalar is read unconditionally — the
flag byte is arbitrary here, so in particular bit 6 (hasNodataValue) may be
set or clear — as one value of the band's pixel-type width, taken from the
bytes immediately after the flag byte; and in the boundary case of pixel
type 10 with width = height = 1, exactly 8 bytes are consumed for nodata
and 8 for the single pixel, leaving the rest of the stream untouched. -/
theorem claimC9 :
    (∀ (machine bo : ByteOrder) (w h flag size : Nat) (nd payload rest : List Nat),
      flag.testBit 7 = false → sizes.get? (flag % 16) = some size →
      nd.length = size → payload.length = w * h * size →
      readBand machine bo w h (flag :: (nd ++ (payload ++ rest))) =
        .ok ({ isOffline := false
               hasNodataValue := flag.testBit 6
               isNodataValue := flag.testBit 5
               nodata := decodeVal bo (flag % 16) nd
               bandNumber := none
               path := none
               ndarray := some (ndarrayOf machine (flag % 16) size w h payload) }, rest)) ∧
    (∀ (machine bo : ByteOrder) (nd p8 rest : List Nat),
      nd.length = 8 → p8.length = 8 →
      readBand machine bo 1 1 (10 :: (nd ++ (p8 ++ rest))) =
        .ok ({ isOffline := false
               hasNodataValue := false
               isNodataValue := false
               nodata := .vFloat64 (wordOfBytes bo nd)
               bandNumber := none
               path := none
               ndarray := some [[.vFloat64 (wordOfBytes machine p8)]] }, rest)) := by
  refine ⟨fun machine bo w h flag size nd payload rest hoff hsize hnd hpay =>
    readBand_inline machine bo w h flag size nd payload rest hoff hsize hnd hpay, ?_⟩
  intro machine bo nd p8 rest hnd hp8
  have ht : p8.take 8 = p8 := by rw [← hp8]; exact List.take_length p8
  rw [readBand_inline machine bo 1 1 10 8 nd p8 rest (by decide) (by decide) hnd
    (by simpa using hp8)]
  have h6 : Nat.testBit 10 6 = false := by decide
  have h5 : Nat.testBit 10 5 = false := by decide
  have hr1 : List.range 1 = [0] := by decide
  simp [decodeVal, ndarrayOf, hr1, ht, h6, h5]

/-- Witness for C9: a flag byte with hasNodataValue set (and another run of
the boundary case through a 64-bit band). -/
theorem claimC9_witness :
    Nat.testBit 68 7 = false ∧ sizes.get? (68 % 16) = some 1 ∧
    ([7] : List Nat).length = 1 ∧ ([1, 2, 3, 4] : List Nat).length = 2 * 2 * 1 ∧
    readBand .little .big 2 2 (68 :: ([7] ++ ([1, 2, 3, 4] ++ []))) =
      .ok ({ isOffline := false
             hasNodataValue := Nat.testBit 68 6
             isNodataValue := Nat.testBit 68 5
             nodata := decodeVal .big (68 % 16) [7]
             bandNumber := none
             path := none
             ndarray := some (ndarrayOf .little (68 % 16) 1 2 2 [1, 2, 3, 4]) }, []) :=
  ⟨by decide, by decide, by decide, by decide,
    claimC9.1 .little .big 2 2 68 1 [7] [1, 2, 3, 4] []
      (by decide) (by decide) (by decide) (by decide)⟩

/-- Counterexample to claim C10 as stated: a big-endian stream (marker 0)
decoded on a little-endian machine yields pixel value 1 from the wire
bytes `01 00`, whereas the resolved (big-endian) byte order would give
256 — numpy is handed a dtype with no byte-order character (line 214), so
pixels are read in the machine's native order, not the stream's. -/
theorem claimC10_counterexample :
    read_wkb_raster .little c10stream =
      .ok { version := 0, scaleX := 0, scaleY := 0, ipX := 0, ipY := 0,
            skewX := 0, skewY := 0, srid := 0, width := 1, height := 1,
            bands := [{ isOffline := false
                        hasNodataValue := false
                        isNodataValue := false
                        nodata := .vInt 0
                        bandNumber := none
                        path := none
                        ndarray := some [[.vInt 1]] }] } ∧
    decodeVal .big 5 [1, 0] = .vInt 256 ∧ Val.vInt 1 ≠ Val.vInt 256 := by decide

/-- Claim C10 (corrected).  For a successful inline band decode the pixel
buffer has exactly `height` rows of `width` columns (rows first), and the
element at row `r`, column `c` is decoded from the bytes of flat element
`r*width + c` of the wire payload — in the machine's native byte order,
not the stream's resolved byte order. -/
theorem claimC10 :
    ∀ (machine bo : ByteOrder) (w h flag size : Nat) (nd payload rest : List Nat),
      flag.testBit 7 = false → sizes.get? (flag % 16) = some size →
      nd.length = size → payload.length = w * h * size → 0 < w → 0 < h →
      readBand machine bo w h (flag :: (nd ++ (payload ++ rest))) =
        .ok ({ isOffline := false
               hasNodataValue := flag.testBit 6
               isNodataValue := flag.testBit 5
               nodata := decodeVal bo (flag % 16) nd
               bandNumber := none
               path := none
               ndarray := some (ndarrayOf machine (flag % 16) size w h payload) }, rest) ∧
      (ndarrayOf machine (flag % 16) size w h payload).length = h ∧
      (∀ row ∈ ndarrayOf machine (flag % 16) size w h payload, row.length = w) ∧
      (∀ r c : Nat, r < h → c < w →
        ((ndarrayOf machine (flag % 16) size w h payload).getD r []).getD c (Val.vInt 0) =
          decodeVal machine (flag % 16) ((payload.drop ((r * w + c) * size)).take size)) := by
  intro machine bo w h flag size nd payload rest hoff hsize hnd hpay hw hh
  refine ⟨readBand_inline machine bo w h flag size nd payload rest hoff hsize hnd hpay,
    ?_, ?_, ?_⟩
  · simp [ndarrayOf]
  · intro row hrow
    simp only [ndarrayOf, List.mem_map] at hrow
    obtain ⟨r, _, hr⟩ := hrow
    simp [← hr]
  · intro r c hr hc
    rw [ndarrayOf, getD_range_map _ h r [] hr, getD_range_map _ w c (Val.vInt 0) hc]

/-- Witness for C10: a 2×1 16-bit band decoded on a little-endian machine
from a big-endian stream. -/
theorem claimC10_witness :
    Nat.testBit 5 7 = false ∧ sizes.get? (5 % 16) = some 2 ∧
    ([0, 0] : List Nat).length = 2 ∧ ([1, 0, 0, 2] : List Nat).length = 2 * 1 * 2 ∧
    0 < 2 ∧ 0 < 1 ∧
    (readBand .little .big 2 1 (5 :: ([0, 0] ++ ([1, 0, 0, 2] ++ []))) =
        .ok ({ isOffline := false
               hasNodataValue := Nat.testBit 5 6
               isNodataValue := Nat.testBit 5 5
               nodata := decodeVal .big (5 % 16) [0, 0]
               bandNumber := none
               path := none
               ndarray := some (ndarrayOf .little (5 % 16) 2 2 1 [1, 0, 0, 2]) }, []) ∧
      (ndarrayOf .little (5 % 16) 2 2 1 [1, 0, 0, 2]).length = 1 ∧
      (∀ row ∈ ndarrayOf .little (5 % 16) 2 2 1 [1, 0, 0, 2], row.length = 2) ∧
      (∀ r c : Nat, r < 1 → c < 2 →
        ((ndarrayOf .little (5 % 16) 2 2 1 [1, 0, 0, 2]).getD r []).getD c (Val.vInt 0) =
          decodeVal .little (5 % 16) (([1, 0, 0, 2].drop ((r * 2 + c) * 2)).take 2))) :=
  ⟨by decide, by decide, by decide, by decide, by decide, by decide,
    claimC10 .little .big 2 1 5 2 [0, 0] [1, 0, 0, 2] []
      (by decide) (by decide) (by decide) (by decide) (by decide) (by decide)⟩

end WKB
